import Mathlib

/-!
Shallow embedding of the Home Assistant search integration
(module homeassistant/components/search): a worklist-based multi-kind
graph search over the home-automation object graph, together with
proofs of the specified properties.

The Python results dict (kind to set of ids, empty buckets pruned on
return) is modelled as a finite set of (kind, id) pairs; the Python
worklist set with arbitrary pop is modelled as a list for the
executable drain, plus a step relation allowing an arbitrary element
to be popped.  Python set.remove raising KeyError is modelled by
Option (none for the raised error).
-/

namespace SearchIntegration

/-- Item kinds handled by the search integration (the eight values
accepted for item_type by the websocket command). -/
inductive Kind where
  | area
  | device
  | entity
  | config_entry
  | automation
  | scene
  | script
  | group
deriving DecidableEq

/-- Fields of a device registry entry read by the searcher. -/
structure DeviceEntry where
  area_id : Option String
  config_entries : List String
deriving DecidableEq

/-- Fields of an entity registry entry read by the searcher. -/
structure EntityEntry where
  device_id : Option String
  config_entry_id : Option String
deriving DecidableEq

/-- Read-only external collaborators queried by the searcher: device
and entity registries plus the scene and group helpers.  Field names
follow the functions called in the source. -/
structure Graph where
  async_entries_for_area : String → List String
  device_async_get : String → Option DeviceEntry
  async_entries_for_device : String → List String
  scenes_with_entity : String → List String
  groups_with_entity : String → List String
  entity_async_get : String → Option EntityEntry
  get_entity_ids : String → List String
  entities_in_scene : String → List String
  device_entries_for_config_entry : String → List String
  entity_entries_for_config_entry : String → List String

/-- Python split_entity_id splits on the first dot; only index zero
(the domain) is read by the searcher, and the head of a split on every
dot agrees with the head of a split limited to one separator.  The
split is taken on the character list so that it evaluates by kernel
reduction. -/
def split_entity_id (entity_id : String) : List String :=
  (entity_id.data.splitOn ('.')).map (fun l => String.mk l)

/-- State of one Searcher instance: the accumulated results (pairs of
kind and id) and the pending worklist to_resolve. -/
structure Searcher where
  results : Finset (Kind × String)
  to_resolve : List (Kind × String)
deriving DecidableEq

/-- Kinds that are not further explored when discovered (class
attribute DONT_RESOLVE in the source). -/
def DONT_RESOLVE : Finset Kind :=
  {Kind.scene, Kind.automation, Kind.script, Kind.group, Kind.config_entry, Kind.area}

/-- Method _add_or_resolve: no-op when the id is already in the bucket
for this kind; otherwise record it and enqueue it unless its kind is
in DONT_RESOLVE. -/
def add_or_resolve (item_type : Kind) (item_id : String) (s : Searcher) : Searcher :=
  if (item_type, item_id) ∈ s.results then s
  else
    { results := insert (item_type, item_id) s.results
      to_resolve :=
        if item_type ∈ DONT_RESOLVE then s.to_resolve
        else s.to_resolve ++ [(item_type, item_id)] }

/-- Method _resolve_area: every device assigned to the area. -/
def resolve_area (g : Graph) (area_id : String) (s : Searcher) : Searcher :=
  (g.async_entries_for_area area_id).foldl
    (fun t d => add_or_resolve Kind.device d t) s

/-- Method _resolve_device: the device's area (Python truthiness also
skips an empty string), its config entries, and its entities; the
via_device_id backlink is deliberately not resolved in the source. -/
def resolve_device (g : Graph) (device_id : String) (s : Searcher) : Searcher :=
  let s1 :=
    match g.device_async_get device_id with
    | none => s
    | some device_entry =>
      let s2 :=
        match device_entry.area_id with
        | none => s
        | some a => if a = "" then s else add_or_resolve Kind.area a s
      device_entry.config_entries.foldl
        (fun t c => add_or_resolve Kind.config_entry c t) s2
  (g.async_entries_for_device device_id).foldl
    (fun t e => add_or_resolve Kind.entity e t) s1

/-- Method _resolve_entity: scenes and groups containing the entity
(recorded under kind entity, as in the source), the owning device and
config entry, and re-classification under the entity id's own domain
when that domain is scene, automation, script or group. -/
def resolve_entity (g : Graph) (entity_id : String) (s : Searcher) : Searcher :=
  let s1 := (g.scenes_with_entity entity_id).foldl
    (fun t e => add_or_resolve Kind.entity e t) s
  let s2 := (g.groups_with_entity entity_id).foldl
    (fun t e => add_or_resolve Kind.entity e t) s1
  let s3 :=
    match g.entity_async_get entity_id with
    | none => s2
    | some entity_entry =>
      let s4 :=
        match entity_entry.device_id with
        | none => s2
        | some d => if d = "" then s2 else add_or_resolve Kind.device d s2
      match entity_entry.config_entry_id with
      | none => s4
      | some c => add_or_resolve Kind.config_entry c s4
  let domain := (split_entity_id entity_id).headD ("")
  if domain = "scene" then add_or_resolve Kind.scene entity_id s3
  else if domain = "automation" then add_or_resolve Kind.automation entity_id s3
  else if domain = "script" then add_or_resolve Kind.script entity_id s3
  else if domain = "group" then add_or_resolve Kind.group entity_id s3
  else s3

/-- Method _resolve_automation: no expansion is performed (future
extension point in the source). -/
def resolve_automation (_g : Graph) (_automation_entity_id : String) (s : Searcher) : Searcher :=
  s

/-- Method _resolve_script: no expansion is performed (future
extension point in the source). -/
def resolve_script (_g : Graph) (_script_entity_id : String) (s : Searcher) : Searcher :=
  s

/-- Method _resolve_group: every direct member entity of the group. -/
def resolve_group (g : Graph) (group_entity_id : String) (s : Searcher) : Searcher :=
  (g.get_entity_ids group_entity_id).foldl
    (fun t e => add_or_resolve Kind.entity e t) s

/-- Method _resolve_scene: every entity captured by the scene. -/
def resolve_scene (g : Graph) (scene_entity_id : String) (s : Searcher) : Searcher :=
  (g.entities_in_scene scene_entity_id).foldl
    (fun t e => add_or_resolve Kind.entity e t) s

/-- Method _resolve_config_entry: every device and entity registered
under the config entry. -/
def resolve_config_entry (g : Graph) (config_entry_id : String) (s : Searcher) : Searcher :=
  let s1 := (g.device_entries_for_config_entry config_entry_id).foldl
    (fun t d => add_or_resolve Kind.device d t) s
  (g.entity_entries_for_config_entry config_entry_id).foldl
    (fun t e => add_or_resolve Kind.entity e t) s1

/-- Dispatch on the popped kind (getattr on the resolve method name in
the source). -/
def resolve_node (g : Graph) (p : Kind × String) (s : Searcher) : Searcher :=
  match p.1 with
  | Kind.area => resolve_area g p.2 s
  | Kind.device => resolve_device g p.2 s
  | Kind.entity => resolve_entity g p.2 s
  | Kind.config_entry => resolve_config_entry g p.2 s
  | Kind.automation => resolve_automation g p.2 s
  | Kind.scene => resolve_scene g p.2 s
  | Kind.script => resolve_script g p.2 s
  | Kind.group => resolve_group g p.2 s

/-- The seeded state at the start of async_search: the entry pair is
put into both the results and the worklist. -/
def seed (item_type : Kind) (item_id : String) : Searcher :=
  { results := {(item_type, item_id)}, to_resolve := [(item_type, item_id)] }

/-- The while loop of async_search, popping the head of the worklist;
fuel bounds the number of iterations (the source loop runs until the
worklist is empty). -/
def resolve_all (g : Graph) : Nat → Searcher → Searcher
  | 0, s => s
  | fuel + 1, s =>
    match s.to_resolve with
    | [] => s
    | p :: rest => resolve_all g fuel (resolve_node g p { s with to_resolve := rest })

/-- Cross-bucket cleanup of async_search: the four subtractions that
remove from the entity bucket every id also present in the script,
scene, automation or group bucket. -/
def cleanup_results (r : Finset (Kind × String)) : Finset (Kind × String) :=
  r.filter (fun p =>
    ¬(p.1 = Kind.entity ∧
      ((Kind.script, p.2) ∈ r ∨ (Kind.scene, p.2) ∈ r ∨
       (Kind.automation, p.2) ∈ r ∨ (Kind.group, p.2) ∈ r)))

/-- Entry-point removal of async_search: Python set.remove raises
KeyError when the element is absent, modelled by none. -/
def remove_entry (item_type : Kind) (item_id : String) (r : Finset (Kind × String)) :
    Option (Finset (Kind × String)) :=
  if (item_type, item_id) ∈ r then some (r.erase (item_type, item_id)) else none

/-- Method async_search: seed, drain the worklist, clean up the entity
bucket, remove the entry pair (KeyError as none), return the result
set (the pair-set representation makes the empty-bucket filter of the
returned dict implicit). -/
def async_search (g : Graph) (fuel : Nat) (item_type : Kind) (item_id : String) :
    Option (Finset (Kind × String)) :=
  remove_entry item_type item_id
    (cleanup_results (resolve_all g fuel (seed item_type item_id)).results)

/-- One drain step popping an arbitrary pending pair, as the Python
set pop may: the executable resolve_all always picks the head. -/
def search_step (g : Graph) (s t : Searcher) : Prop :=
  ∃ l1 p l2, s.to_resolve = l1 ++ p :: l2 ∧
    t = resolve_node g p { s with to_resolve := l1 ++ l2 }

/-- Uniform view of the adjacency rules: the list of (kind, id) pairs
passed to add_or_resolve when the node p is resolved, in call order.
Each branch mirrors the corresponding resolve method. -/
def found_related (g : Graph) (p : Kind × String) : List (Kind × String) :=
  match p with
  | (Kind.area, area_id) =>
      (g.async_entries_for_area area_id).map (fun d => (Kind.device, d))
  | (Kind.device, device_id) =>
      (match g.device_async_get device_id with
       | none => []
       | some device_entry =>
         (match device_entry.area_id with
          | none => []
          | some a => if a = "" then [] else [(Kind.area, a)]) ++
         device_entry.config_entries.map (fun c => (Kind.config_entry, c))) ++
      (g.async_entries_for_device device_id).map (fun e => (Kind.entity, e))
  | (Kind.entity, entity_id) =>
      (g.scenes_with_entity entity_id).map (fun e => (Kind.entity, e)) ++
      (g.groups_with_entity entity_id).map (fun e => (Kind.entity, e)) ++
      (match g.entity_async_get entity_id with
       | none => []
       | some entity_entry =>
         (match entity_entry.device_id with
          | none => []
          | some d => if d = "" then [] else [(Kind.device, d)]) ++
         (match entity_entry.config_entry_id with
          | none => []
          | some c => [(Kind.config_entry, c)])) ++
      (let domain := (split_entity_id entity_id).headD ("")
       if domain = "scene" then [(Kind.scene, entity_id)]
       else if domain = "automation" then [(Kind.automation, entity_id)]
       else if domain = "script" then [(Kind.script, entity_id)]
       else if domain = "group" then [(Kind.group, entity_id)]
       else [])
  | (Kind.config_entry, config_entry_id) =>
      (g.device_entries_for_config_entry config_entry_id).map (fun d => (Kind.device, d)) ++
      (g.entity_entries_for_config_entry config_entry_id).map (fun e => (Kind.entity, e))
  | (Kind.automation, _) => []
  | (Kind.script, _) => []
  | (Kind.group, group_entity_id) =>
      (g.get_entity_ids group_entity_id).map (fun e => (Kind.entity, e))
  | (Kind.scene, scene_entity_id) =>
      (g.entities_in_scene scene_entity_id).map (fun e => (Kind.entity, e))

/-- Folding add_or_resolve over a list of discovered pairs. -/
def run (l : List (Kind × String)) (s : Searcher) : Searcher :=
  l.foldl (fun t c => add_or_resolve c.1 c.2 t) s

theorem run_nil (s : Searcher) : run [] s = s := rfl

theorem run_cons (c : Kind × String) (l : List (Kind × String)) (s : Searcher) :
    run (c :: l) s = run l (add_or_resolve c.1 c.2 s) := rfl

theorem run_append (l1 l2 : List (Kind × String)) (s : Searcher) :
    run (l1 ++ l2) s = run l2 (run l1 s) := by
  simp [run, List.foldl_append]

theorem run_map_fold (k : Kind) (l : List String) (s : Searcher) :
    l.foldl (fun t x => add_or_resolve k x t) s = run (l.map (fun x => (k, x))) s := by
  simp [run, List.foldl_map]

theorem run_singleton (c : Kind × String) (s : Searcher) :
    run [c] s = add_or_resolve c.1 c.2 s := rfl

/-- Each resolve method is exactly the fold of add_or_resolve over the
pairs listed by found_related. -/
theorem resolve_node_eq_run (g : Graph) (p : Kind × String) (s : Searcher) :
    resolve_node g p s = run (found_related g p) s := by
  obtain ⟨k, i⟩ := p
  cases k
  case area =>
    simp only [resolve_node, resolve_area, found_related, run_map_fold]
  case device =>
    simp only [resolve_node, resolve_device, found_related, run_map_fold, run_append]
    cases g.device_async_get i with
    | none => simp only [run_nil]
    | some de =>
      dsimp only
      simp only [run_map_fold, run_append]
      cases de.area_id with
      | none => simp only [run_nil]
      | some a =>
        dsimp only
        split_ifs <;> simp only [run_nil, run_singleton]
  case entity =>
    simp only [resolve_node, resolve_entity, found_related, run_map_fold, run_append]
    cases g.entity_async_get i with
    | none =>
      simp only [run_nil]
      split_ifs <;> simp only [run_nil, run_singleton]
    | some ee =>
      dsimp only
      simp only [run_append]
      cases ee.device_id with
      | none =>
        dsimp only
        cases ee.config_entry_id with
        | none =>
          dsimp only
          simp only [run_nil]
          split_ifs <;> simp only [run_nil, run_singleton]
        | some c =>
          dsimp only
          simp only [run_nil, run_singleton]
          split_ifs <;> simp only [run_nil, run_singleton]
      | some d =>
        dsimp only
        cases ee.config_entry_id with
        | none =>
          dsimp only
          simp only [run_nil, run_append]
          split_ifs <;> simp only [run_nil, run_singleton, run_append]
        | some c =>
          dsimp only
          split_ifs <;> simp only [run_nil, run_singleton, run_append]
  case config_entry =>
    simp only [resolve_node, resolve_config_entry, found_related, run_map_fold, run_append]
  case automation => rfl
  case scene =>
    simp only [resolve_node, resolve_scene, found_related, run_map_fold]
  case script => rfl
  case group =>
    simp only [resolve_node, resolve_group, found_related, run_map_fold]

theorem add_or_resolve_already (k : Kind) (i : String) (s : Searcher)
    (h : (k, i) ∈ s.results) : add_or_resolve k i s = s := by
  simp [add_or_resolve, h]

theorem add_or_resolve_mem_self (k : Kind) (i : String) (s : Searcher) :
    (k, i) ∈ (add_or_resolve k i s).results := by
  unfold add_or_resolve
  split_ifs with h h2
  · exact h
  · exact Finset.mem_insert_self _ _
  · exact Finset.mem_insert_self _ _

theorem add_or_resolve_results_mono (k : Kind) (i : String) (s : Searcher)
    (q : Kind × String) (h : q ∈ s.results) : q ∈ (add_or_resolve k i s).results := by
  unfold add_or_resolve
  split_ifs with h1 h2
  · exact h
  · exact Finset.mem_insert_of_mem h
  · exact Finset.mem_insert_of_mem h

theorem add_or_resolve_results_sub (k : Kind) (i : String) (s : Searcher)
    (q : Kind × String) (h : q ∈ (add_or_resolve k i s).results) :
    q ∈ s.results ∨ q = (k, i) := by
  unfold add_or_resolve at h
  split_ifs at h with h1 h2 <;>
  first
  | exact Or.inl h
  | · rcases Finset.mem_insert.1 h with h | h
      · exact Or.inr h
      · exact Or.inl h

theorem add_or_resolve_wl_mono (k : Kind) (i : String) (s : Searcher)
    (q : Kind × String) (h : q ∈ s.to_resolve) : q ∈ (add_or_resolve k i s).to_resolve := by
  unfold add_or_resolve
  split_ifs with h1 h2
  · exact h
  · exact h
  · exact List.mem_append_left _ h

theorem add_or_resolve_wl_sub (k : Kind) (i : String) (s : Searcher)
    (q : Kind × String) (h : q ∈ (add_or_resolve k i s).to_resolve) :
    q ∈ s.to_resolve ∨ (q = (k, i) ∧ k ∉ DONT_RESOLVE ∧ (k, i) ∉ s.results) := by
  unfold add_or_resolve at h
  split_ifs at h with h1 h2
  · exact Or.inl h
  · exact Or.inl h
  · rcases List.mem_append.1 h with h3 | h3
    · exact Or.inl h3
    · exact Or.inr ⟨List.mem_singleton.1 h3, h2, h1⟩

theorem add_or_resolve_wl_results (k : Kind) (i : String) (s : Searcher)
    (hs : ∀ q ∈ s.to_resolve, q ∈ s.results) :
    ∀ q ∈ (add_or_resolve k i s).to_resolve, q ∈ (add_or_resolve k i s).results := by
  intro q hq
  rcases add_or_resolve_wl_sub k i s q hq with h | ⟨h, _, _⟩
  · exact add_or_resolve_results_mono k i s q (hs q h)
  · subst h
    exact add_or_resolve_mem_self k i s

theorem add_or_resolve_enqueues (k : Kind) (i : String) (s : Searcher)
    (hnew : (k, i) ∉ s.results) (hk : k ∉ DONT_RESOLVE) :
    (k, i) ∈ (add_or_resolve k i s).to_resolve := by
  unfold add_or_resolve
  split_ifs
  exact List.mem_append_right _ (List.mem_singleton.2 rfl)

theorem run_results_mono (l : List (Kind × String)) (s : Searcher)
    (q : Kind × String) (h : q ∈ s.results) : q ∈ (run l s).results := by
  induction l generalizing s with
  | nil => exact h
  | cons c l ih =>
    rw [run_cons]
    exact ih _ (add_or_resolve_results_mono c.1 c.2 s q h)

theorem run_wl_mono (l : List (Kind × String)) (s : Searcher)
    (q : Kind × String) (h : q ∈ s.to_resolve) : q ∈ (run l s).to_resolve := by
  induction l generalizing s with
  | nil => exact h
  | cons c l ih =>
    rw [run_cons]
    exact ih _ (add_or_resolve_wl_mono c.1 c.2 s q h)

theorem run_mem_of_mem (l : List (Kind × String)) (s : Searcher)
    (c : Kind × String) (h : c ∈ l) : c ∈ (run l s).results := by
  induction l generalizing s with
  | nil => cases h
  | cons a l ih =>
    rw [run_cons]
    rcases List.mem_cons.1 h with h | h
    · subst h
      exact run_results_mono l _ c (add_or_resolve_mem_self c.1 c.2 s)
    · exact ih _ h

theorem run_results_sub (l : List (Kind × String)) (s : Searcher)
    (q : Kind × String) (h : q ∈ (run l s).results) : q ∈ s.results ∨ q ∈ l := by
  induction l generalizing s with
  | nil => exact Or.inl h
  | cons c l ih =>
    rw [run_cons] at h
    rcases ih _ h with h | h
    · rcases add_or_resolve_results_sub c.1 c.2 s q h with h | h
      · exact Or.inl h
      · exact Or.inr (by simp [h])
    · exact Or.inr (List.mem_cons_of_mem _ h)

theorem run_wl_sub (l : List (Kind × String)) (s : Searcher)
    (q : Kind × String) (h : q ∈ (run l s).to_resolve) :
    q ∈ s.to_resolve ∨ (q ∈ l ∧ q.1 ∉ DONT_RESOLVE) := by
  induction l generalizing s with
  | nil => exact Or.inl h
  | cons c l ih =>
    rw [run_cons] at h
    rcases ih _ h with h | ⟨h1, h2⟩
    · rcases add_or_resolve_wl_sub c.1 c.2 s q h with h | ⟨h1, h2, _⟩
      · exact Or.inl h
      · subst h1
        exact Or.inr ⟨List.mem_cons_self _ _, h2⟩
    · exact Or.inr ⟨List.mem_cons_of_mem _ h1, h2⟩

theorem run_wl_results (l : List (Kind × String)) (s : Searcher)
    (hs : ∀ q ∈ s.to_resolve, q ∈ s.results) :
    ∀ q ∈ (run l s).to_resolve, q ∈ (run l s).results := by
  induction l generalizing s with
  | nil => exact hs
  | cons c l ih =>
    rw [run_cons]
    exact ih _ (add_or_resolve_wl_results c.1 c.2 s hs)

theorem run_enqueues (l : List (Kind × String)) (s : Searcher)
    (c : Kind × String) (hc : c ∈ l) (hk : c.1 ∉ DONT_RESOLVE)
    (hnew : c ∉ s.results) : c ∈ (run l s).to_resolve := by
  induction l generalizing s with
  | nil => cases hc
  | cons a l ih =>
    rw [run_cons]
    by_cases hac : a = c
    · subst hac
      exact run_wl_mono l _ a (add_or_resolve_enqueues a.1 a.2 s hnew hk)
    · rcases List.mem_cons.1 hc with h | h
      · exact absurd h.symm hac
      · refine ih _ h ?_
        intro hmem
        rcases add_or_resolve_results_sub a.1 a.2 s c hmem with h2 | h2
        · exact hnew h2
        · exact hac h2.symm

theorem run_card (l : List (Kind × String)) (s : Searcher) :
    s.results.card + (run l s).to_resolve.length ≤
      (run l s).results.card + s.to_resolve.length := by
  induction l generalizing s with
  | nil => simp [run_nil]
  | cons c l ih =>
    rw [run_cons]
    have h2 := ih (add_or_resolve c.1 c.2 s)
    unfold add_or_resolve at h2 ⊢
    split_ifs at h2 ⊢ with h3 h4
    · omega
    · rw [Finset.card_insert_of_not_mem h3] at h2
      simp only at h2
      omega
    · rw [Finset.card_insert_of_not_mem h3] at h2
      simp only [List.length_append, List.length_singleton] at h2
      omega

theorem resolve_all_of_empty (g : Graph) (fuel : Nat) (s : Searcher)
    (h : s.to_resolve = []) : resolve_all g fuel s = s := by
  cases fuel with
  | zero => rfl
  | succ fuel =>
    unfold resolve_all
    rw [h]

theorem resolve_all_results_mono (g : Graph) (fuel : Nat) (s : Searcher)
    (q : Kind × String) (h : q ∈ s.results) : q ∈ (resolve_all g fuel s).results := by
  induction fuel generalizing s with
  | zero => exact h
  | succ fuel ih =>
    unfold resolve_all
    cases hw : s.to_resolve with
    | nil => exact h
    | cons p rest =>
      refine ih _ ?_
      rw [resolve_node_eq_run]
      exact run_results_mono _ _ q h

/-- Preservation of the worklist-in-results invariant along the
executable drain. -/
theorem resolve_all_wl_results (g : Graph) (fuel : Nat) (s : Searcher)
    (hs : ∀ q ∈ s.to_resolve, q ∈ s.results) :
    ∀ q ∈ (resolve_all g fuel s).to_resolve, q ∈ (resolve_all g fuel s).results := by
  induction fuel generalizing s with
  | zero => exact hs
  | succ fuel ih =>
    unfold resolve_all
    cases hw : s.to_resolve with
    | nil => exact hs
    | cons p rest =>
      refine ih _ ?_
      rw [resolve_node_eq_run]
      refine run_wl_results _ _ ?_
      intro q hq
      exact hs q (by rw [hw]; exact List.mem_cons_of_mem _ hq)

/-- Main termination lemma: on a finite universe U that contains the
current results and is closed under found_related, the drain loop
empties the worklist once the fuel is at least twice the number of
not-yet-found pairs plus the worklist length. -/
theorem resolve_all_drains (g : Graph) (U : Finset (Kind × String))
    (hU : ∀ p ∈ U, ∀ c ∈ found_related g p, c ∈ U) :
    ∀ fuel (s : Searcher), s.results ⊆ U →
      (∀ q ∈ s.to_resolve, q ∈ s.results) →
      2 * U.card + s.to_resolve.length ≤ fuel + 2 * s.results.card →
      (resolve_all g fuel s).to_resolve = [] := by
  intro fuel
  induction fuel with
  | zero =>
    intro s hsub hwl hm
    have hcard : s.results.card ≤ U.card := Finset.card_le_card hsub
    have : s.to_resolve.length = 0 := by omega
    exact List.length_eq_zero.1 this
  | succ fuel ih =>
    intro s hsub hwl hm
    unfold resolve_all
    cases hw : s.to_resolve with
    | nil => exact hw
    | cons p rest =>
      dsimp only
      rw [resolve_node_eq_run]
      have hpU : p ∈ U := hsub (hwl p (by rw [hw]; exact List.mem_cons_self _ _))
      have hsub2 : (run (found_related g p) { s with to_resolve := rest }).results ⊆ U := by
        intro q hq
        rcases run_results_sub _ _ q hq with h | h
        · exact hsub h
        · exact hU p hpU q h
      have hwl2 : ∀ q ∈ (run (found_related g p) { s with to_resolve := rest }).to_resolve,
          q ∈ (run (found_related g p) { s with to_resolve := rest }).results := by
        refine run_wl_results _ _ ?_
        intro q hq
        exact hwl q (by rw [hw]; exact List.mem_cons_of_mem _ hq)
      refine ih _ hsub2 hwl2 ?_
      have hcardrun := run_card (found_related g p) { s with to_resolve := rest }
      dsimp only at hcardrun
      have hmono : s.results.card ≤
          (run (found_related g p) { s with to_resolve := rest }).results.card := by
        refine Finset.card_le_card ?_
        intro q hq
        exact run_results_mono _ _ q hq
      have hUc : (run (found_related g p) { s with to_resolve := rest }).results.card ≤ U.card :=
        Finset.card_le_card hsub2
      have hlen : s.to_resolve.length = rest.length + 1 := by
        rw [hw]; simp
      omega

/-- Pairs that get expanded (popped and resolved) during a search
seeded at (k0, i0): the seed itself, and recursively every child
discovered from an expanded node whose kind is not terminal. -/
inductive Expanded (g : Graph) (k0 : Kind) (i0 : String) : Kind × String → Prop where
  | seed : Expanded g k0 i0 (k0, i0)
  | child (p c : Kind × String) : Expanded g k0 i0 p → c ∈ found_related g p →
      c.1 ∉ DONT_RESOLVE → Expanded g k0 i0 c

/-- All pairs recorded by a complete drain from the seed (k0, i0),
before the cleanup and entry-removal post-processing: the seed plus
every child of an expanded node.  This set does not depend on the
order in which the worklist is drained. -/
def FoundSet (g : Graph) (k0 : Kind) (i0 : String) : Set (Kind × String) :=
  {q | q = (k0, i0) ∨ ∃ p, Expanded g k0 i0 p ∧ q ∈ found_related g p}

theorem expanded_cases (g : Graph) (k0 : Kind) (i0 : String) (q : Kind × String)
    (h : Expanded g k0 i0 q) : q = (k0, i0) ∨ q.1 ∉ DONT_RESOLVE := by
  cases h with
  | seed => exact Or.inl rfl
  | child p c _ _ hk => exact Or.inr hk

/-- Invariant of the drain loop: the seed is recorded; everything
recorded is in FoundSet; every pending pair is expanded and recorded;
and every expanded pair that is recorded but no longer pending has had
all of its children recorded. -/
def SearchInv (g : Graph) (k0 : Kind) (i0 : String) (s : Searcher) : Prop :=
  (k0, i0) ∈ s.results ∧
  (∀ q ∈ s.results, q ∈ FoundSet g k0 i0) ∧
  (∀ q ∈ s.to_resolve, Expanded g k0 i0 q ∧ q ∈ s.results) ∧
  (∀ q, Expanded g k0 i0 q → q ∈ s.results → q ∉ s.to_resolve →
    ∀ c ∈ found_related g q, c ∈ s.results)

theorem searchInv_seed (g : Graph) (k0 : Kind) (i0 : String) :
    SearchInv g k0 i0 (seed k0 i0) := by
  refine ⟨Finset.mem_singleton_self _, ?_, ?_, ?_⟩
  · intro q hq
    exact Or.inl (Finset.mem_singleton.1 hq)
  · intro q hq
    have : q = (k0, i0) := by simpa [seed] using hq
    subst this
    exact ⟨Expanded.seed, Finset.mem_singleton_self _⟩
  · intro q _ hq hnq
    have : q = (k0, i0) := Finset.mem_singleton.1 hq
    subst this
    exact absurd (by simp [seed]) hnq

theorem searchInv_step (g : Graph) (k0 : Kind) (i0 : String) (s t : Searcher)
    (hinv : SearchInv g k0 i0 s) (hstep : search_step g s t) :
    SearchInv g k0 i0 t := by
  obtain ⟨ha, hb, hc, hd⟩ := hinv
  obtain ⟨l1, p, l2, hw, ht⟩ := hstep
  rw [resolve_node_eq_run] at ht
  have hpmem : p ∈ s.to_resolve := by
    rw [hw]; exact List.mem_append_right _ (List.mem_cons_self _ _)
  have hpexp : Expanded g k0 i0 p := (hc p hpmem).1
  have hmidwl : ∀ q, q ∈ l1 ++ l2 → q ∈ s.to_resolve := by
    intro q hq
    rw [hw]
    rcases List.mem_append.1 hq with h | h
    · exact List.mem_append_left _ h
    · exact List.mem_append_right _ (List.mem_cons_of_mem _ h)
  subst ht
  refine ⟨?_, ?_, ?_, ?_⟩
  · exact run_results_mono _ _ _ ha
  · intro q hq
    rcases run_results_sub _ _ q hq with h | h
    · exact hb q h
    · exact Or.inr ⟨p, hpexp, h⟩
  · intro q hq
    constructor
    · rcases run_wl_sub _ _ q hq with h | ⟨h1, h2⟩
      · exact (hc q (hmidwl q h)).1
      · exact Expanded.child p q hpexp h1 h2
    · refine run_wl_results _ _ ?_ q hq
      intro q2 hq2
      exact (hc q2 (hmidwl q2 hq2)).2
  · intro q hqexp hqres hqwl c hcq
    by_cases hqp : q = p
    · subst hqp
      exact run_mem_of_mem _ _ c hcq
    · by_cases hqs : q ∈ s.results
      · have hqnot : q ∉ s.to_resolve := by
          intro hmem
          rw [hw] at hmem
          rcases List.mem_append.1 hmem with h | h
          · exact hqwl (run_wl_mono _ _ q (List.mem_append_left _ h))
          · rcases List.mem_cons.1 h with h | h
            · exact hqp h
            · exact hqwl (run_wl_mono _ _ q (List.mem_append_right _ h))
        exact run_results_mono _ _ c (hd q hqexp hqs hqnot c hcq)
      · rcases run_results_sub _ _ q hqres with h | h
        · exact absurd h hqs
        · rcases expanded_cases g k0 i0 q hqexp with h2 | h2
          · subst h2
            exact absurd ha hqs
          · exact absurd (run_enqueues _ { s with to_resolve := l1 ++ l2 } q h h2 hqs) hqwl

theorem searchInv_reached (g : Graph) (k0 : Kind) (i0 : String) (s : Searcher)
    (h : Relation.ReflTransGen (search_step g) (seed k0 i0) s) :
    SearchInv g k0 i0 s := by
  induction h with
  | refl => exact searchInv_seed g k0 i0
  | tail _ hstep ih => exact searchInv_step g k0 i0 _ _ ih hstep

/-- On a complete drain (empty worklist), the recorded results are
exactly FoundSet, whatever order the worklist was drained in. -/
theorem drained_results_eq (g : Graph) (k0 : Kind) (i0 : String) (s : Searcher)
    (h : Relation.ReflTransGen (search_step g) (seed k0 i0) s)
    (hempty : s.to_resolve = []) :
    ∀ q, q ∈ s.results ↔ q ∈ FoundSet g k0 i0 := by
  obtain ⟨ha, hb, hc, hd⟩ := searchInv_reached g k0 i0 s h
  have hnotwl : ∀ q : Kind × String, q ∉ s.to_resolve := by
    intro q
    rw [hempty]
    exact List.not_mem_nil q
  have hexp : ∀ q, Expanded g k0 i0 q → q ∈ s.results := by
    intro q hq
    induction hq with
    | seed => exact ha
    | child p c hp hcp _ ihp => exact hd p hp ihp (hnotwl p) c hcp
  intro q
  constructor
  · exact hb q
  · intro hq
    rcases hq with h | ⟨p, hp, hcq⟩
    · subst h; exact ha
    · exact hd p hp (hexp p hp) (hnotwl p) q hcq

/-- One executable step of resolve_all is an instance of the step
relation, popping the head of the worklist. -/
theorem resolve_all_reaches (g : Graph) (fuel : Nat) (s : Searcher) :
    Relation.ReflTransGen (search_step g) s (resolve_all g fuel s) := by
  induction fuel generalizing s with
  | zero => exact Relation.ReflTransGen.refl
  | succ fuel ih =>
    unfold resolve_all
    cases hw : s.to_resolve with
    | nil => exact Relation.ReflTransGen.refl
    | cons p rest =>
      dsimp only
      refine Relation.ReflTransGen.head ?_ (ih _)
      exact ⟨[], p, rest, hw, rfl⟩

/-- The entity-id domain string associated with the four specific
entity kinds that _resolve_entity can re-classify into. -/
def kind_domain : Kind → Option String
  | Kind.scene => some ("scene")
  | Kind.automation => some ("automation")
  | Kind.script => some ("script")
  | Kind.group => some ("group")
  | _ => none

/-- Every pair discovered by an adjacency rule either has a generic
kind (area, device, entity, config_entry), or is the re-classification
of the resolved entity id under its own domain. -/
theorem found_related_domain (g : Graph) (p c : Kind × String)
    (hc : c ∈ found_related g p) :
    kind_domain c.1 = none ∨
      (c.2 = p.2 ∧ kind_domain c.1 = some ((split_entity_id p.2).headD (""))) := by
  obtain ⟨k, i⟩ := p
  cases k <;> simp only [found_related] at hc
  case area =>
    obtain ⟨x, _, rfl⟩ := List.mem_map.1 hc
    exact Or.inl rfl
  case device =>
    rcases List.mem_append.1 hc with hc | hc
    · split at hc
      · cases hc
      · rcases List.mem_append.1 hc with hc | hc
        · split at hc
          · cases hc
          · split_ifs at hc
            · cases hc
            · rw [List.mem_singleton.1 hc]
              exact Or.inl rfl
        · obtain ⟨x, _, rfl⟩ := List.mem_map.1 hc
          exact Or.inl rfl
    · obtain ⟨x, _, rfl⟩ := List.mem_map.1 hc
      exact Or.inl rfl
  case entity =>
    rcases List.mem_append.1 hc with hc | hc
    · rcases List.mem_append.1 hc with hc | hc
      · rcases List.mem_append.1 hc with hc | hc
        · obtain ⟨x, _, rfl⟩ := List.mem_map.1 hc
          exact Or.inl rfl
        · obtain ⟨x, _, rfl⟩ := List.mem_map.1 hc
          exact Or.inl rfl
      · split at hc
        · cases hc
        · rcases List.mem_append.1 hc with hc | hc
          · split at hc
            · cases hc
            · split_ifs at hc
              · cases hc
              · rw [List.mem_singleton.1 hc]
                exact Or.inl rfl
          · split at hc
            · cases hc
            · rw [List.mem_singleton.1 hc]
              exact Or.inl rfl
    · split_ifs at hc with h1 h2 h3 h4
      · rw [List.mem_singleton.1 hc]
        exact Or.inr ⟨rfl, by rw [kind_domain, h1]⟩
      · rw [List.mem_singleton.1 hc]
        exact Or.inr ⟨rfl, by rw [kind_domain, h2]⟩
      · rw [List.mem_singleton.1 hc]
        exact Or.inr ⟨rfl, by rw [kind_domain, h3]⟩
      · rw [List.mem_singleton.1 hc]
        exact Or.inr ⟨rfl, by rw [kind_domain, h4]⟩
      · cases hc
  case config_entry =>
    rcases List.mem_append.1 hc with hc | hc <;>
      obtain ⟨x, _, rfl⟩ := List.mem_map.1 hc <;>
      exact Or.inl rfl
  case automation => cases hc
  case script => cases hc
  case scene =>
    obtain ⟨x, _, rfl⟩ := List.mem_map.1 hc
    exact Or.inl rfl
  case group =>
    obtain ⟨x, _, rfl⟩ := List.mem_map.1 hc
    exact Or.inl rfl

/-- Along the executable drain, any recorded pair of scene, script,
automation or group kind is either the seed or carries an id whose
domain matches its kind. -/
theorem resolve_all_domain_aux (g : Graph) (k0 : Kind) (i0 : String) :
    ∀ (fuel : Nat) (s : Searcher),
      (∀ q ∈ s.results, ∀ n, kind_domain q.1 = some n →
        q = (k0, i0) ∨ (split_entity_id q.2).headD ("") = n) →
      ∀ q ∈ (resolve_all g fuel s).results, ∀ n, kind_domain q.1 = some n →
        q = (k0, i0) ∨ (split_entity_id q.2).headD ("") = n := by
  intro fuel
  induction fuel with
  | zero => exact fun s hs => hs
  | succ fuel ih =>
    intro s hs
    unfold resolve_all
    cases hw : s.to_resolve with
    | nil => exact hs
    | cons p rest =>
      dsimp only
      rw [resolve_node_eq_run]
      refine ih _ ?_
      intro q hq n hn
      rcases run_results_sub _ _ q hq with h | h
      · exact hs q h n hn
      · rcases found_related_domain g p q h with h2 | ⟨h2, h3⟩
        · rw [h2] at hn; cases hn
        · rw [h3] at hn
          right
          rw [h2]
          exact Option.some_injective _ hn

theorem search_step_results_mono (g : Graph) (s t : Searcher)
    (hstep : search_step g s t) (q : Kind × String) (h : q ∈ s.results) :
    q ∈ t.results := by
  obtain ⟨l1, p, l2, _, ht⟩ := hstep
  rw [ht, resolve_node_eq_run]
  exact run_results_mono _ _ q h

theorem mem_cleanup_of_ne_entity (r : Finset (Kind × String)) (q : Kind × String)
    (hq : q ∈ r) (hk : q.1 ≠ Kind.entity) : q ∈ cleanup_results r := by
  refine Finset.mem_filter.2 ⟨hq, ?_⟩
  simp [hk]

theorem mem_cleanup_entity (r : Finset (Kind × String)) (j : String) :
    (Kind.entity, j) ∈ cleanup_results r ↔
      (Kind.entity, j) ∈ r ∧ (Kind.script, j) ∉ r ∧ (Kind.scene, j) ∉ r ∧
        (Kind.automation, j) ∉ r ∧ (Kind.group, j) ∉ r := by
  unfold cleanup_results
  rw [Finset.mem_filter]
  constructor
  · rintro ⟨h1, h2⟩
    refine ⟨h1, ?_, ?_, ?_, ?_⟩ <;> intro hmem <;> exact h2 ⟨rfl, by tauto⟩
  · rintro ⟨h1, h2, h3, h4, h5⟩
    refine ⟨h1, ?_⟩
    rintro ⟨-, hmem | hmem | hmem | hmem⟩
    · exact h2 hmem
    · exact h3 hmem
    · exact h4 hmem
    · exact h5 hmem

theorem cleanup_subset (r : Finset (Kind × String)) :
    ∀ q ∈ cleanup_results r, q ∈ r :=
  fun _ hq => (Finset.mem_filter.1 hq).1

/-- A configuration whose registries are all empty: every query
returns nothing. -/
def empty_graph : Graph :=
  { async_entries_for_area := fun _ => []
    device_async_get := fun _ => none
    async_entries_for_device := fun _ => []
    scenes_with_entity := fun _ => []
    groups_with_entity := fun _ => []
    entity_async_get := fun _ => none
    get_entity_ids := fun _ => []
    entities_in_scene := fun _ => []
    device_entries_for_config_entry := fun _ => []
    entity_entries_for_config_entry := fun _ => [] }

/-- Minimal configuration for the entry-point-only expansion scenario:
scene S contains entities E and E0, both entities back-link to S, and
nothing else is related. -/
def scenario_graph (S E E0 : String) : Graph :=
  { empty_graph with
    entities_in_scene := fun x => if x = S then [E, E0] else []
    scenes_with_entity := fun x => if x = E ∨ x = E0 then [S] else [] }

/-- C9: _add_or_resolve is idempotent: when the pair (kind, id) is
already present in the result bucket for its kind, the call changes
neither the result set nor the worklist. -/
theorem add_or_resolve_idempotent (k : Kind) (i : String) (s : Searcher)
    (h : (k, i) ∈ s.results) :
    (add_or_resolve k i s).results = s.results ∧
      (add_or_resolve k i s).to_resolve = s.to_resolve := by
  rw [add_or_resolve_already k i s h]
  exact ⟨rfl, rfl⟩

/-- Witness for C9 at a concrete state: the seed pair is already
recorded, so re-adding it changes nothing. -/
theorem add_or_resolve_idempotent_witness :
    (Kind.area, ("a" : String)) ∈ (seed Kind.area ("a")).results ∧
      ((add_or_resolve Kind.area ("a") (seed Kind.area ("a"))).results =
          (seed Kind.area ("a")).results ∧
        (add_or_resolve Kind.area ("a") (seed Kind.area ("a"))).to_resolve =
          (seed Kind.area ("a")).to_resolve) :=
  ⟨by decide, add_or_resolve_idempotent Kind.area ("a") (seed Kind.area ("a")) (by decide)⟩

/-- C5: no self-inclusion: whenever async_search returns a mapping,
the entry id is not in the bucket of the entry kind (it was erased by
entry-point removal). -/
theorem search_no_self_inclusion (g : Graph) (fuel : Nat) (k : Kind) (i : String)
    (r : Finset (Kind × String)) (h : async_search g fuel k i = some r) :
    (k, i) ∉ r := by
  unfold async_search remove_entry at h
  split_ifs at h with hmem
  · have h2 := Option.some_injective _ h
    rw [← h2]
    exact Finset.not_mem_erase _ _

/-- Witness for C5 on the empty configuration: the search for an area
returns the empty mapping, which indeed does not contain the entry. -/
theorem search_no_self_inclusion_witness :
    async_search empty_graph 2 Kind.area ("a") = some ∅ ∧
      (Kind.area, ("a" : String)) ∉ (∅ : Finset (Kind × String)) :=
  ⟨by decide, search_no_self_inclusion empty_graph 2 Kind.area ("a") ∅ (by decide)⟩

/-- C6: in every returned mapping the entity bucket is disjoint from
the script, scene, automation and group buckets (cross-bucket cleanup
removes the overlaps, and entry-point removal only shrinks buckets). -/
theorem search_entity_bucket_exclusive (g : Graph) (fuel : Nat) (k : Kind) (i : String)
    (r : Finset (Kind × String)) (h : async_search g fuel k i = some r) (j : String)
    (hj : (Kind.entity, j) ∈ r) :
    (Kind.script, j) ∉ r ∧ (Kind.scene, j) ∉ r ∧
      (Kind.automation, j) ∉ r ∧ (Kind.group, j) ∉ r := by
  unfold async_search remove_entry at h
  split_ifs at h with hmem
  · have h2 := Option.some_injective _ h
    rw [← h2] at hj ⊢
    have hj2 := Finset.mem_of_mem_erase hj
    obtain ⟨-, h3, h4, h5, h6⟩ := (mem_cleanup_entity _ j).1 hj2
    refine ⟨?_, ?_, ?_, ?_⟩ <;> intro hmem2
    · exact h3 (cleanup_subset _ _ (Finset.mem_of_mem_erase hmem2))
    · exact h4 (cleanup_subset _ _ (Finset.mem_of_mem_erase hmem2))
    · exact h5 (cleanup_subset _ _ (Finset.mem_of_mem_erase hmem2))
    · exact h6 (cleanup_subset _ _ (Finset.mem_of_mem_erase hmem2))

/-- Witness for C6: a scene search that returns one entity, which is
indeed absent from the four specific buckets. -/
theorem search_entity_bucket_exclusive_witness :
    async_search (scenario_graph ("scene.s") ("light.e") ("light.e")) 4 Kind.scene ("scene.s") =
        some {(Kind.entity, ("light.e"))} ∧
      ((Kind.script, ("light.e" : String)) ∉
          ({(Kind.entity, ("light.e"))} : Finset (Kind × String)) ∧
        (Kind.scene, ("light.e" : String)) ∉
          ({(Kind.entity, ("light.e"))} : Finset (Kind × String)) ∧
        (Kind.automation, ("light.e" : String)) ∉
          ({(Kind.entity, ("light.e"))} : Finset (Kind × String)) ∧
        (Kind.group, ("light.e" : String)) ∉
          ({(Kind.entity, ("light.e"))} : Finset (Kind × String))) :=
  ⟨by decide,
    search_entity_bucket_exclusive (scenario_graph ("scene.s") ("light.e") ("light.e")) 4
      Kind.scene ("scene.s") {(Kind.entity, ("light.e"))}
      (by decide) ("light.e") (by decide)⟩

/-- C2: searching from entry kind entity with the backing entity id of
a script does NOT complete: the id is re-classified into the script
bucket and survives there, the cross-bucket cleanup removes it from
the entity bucket, and the entry-point removal then raises KeyError
(modelled as none).  The drain itself completes (empty worklist), so
the failure is precisely the set.remove call of async_search. -/
theorem search_script_entry_raises :
    (resolve_all empty_graph 2 (seed Kind.entity ("script.foo"))).to_resolve = [] ∧
      (Kind.script, ("script.foo" : String)) ∈
        cleanup_results ((resolve_all empty_graph 2 (seed Kind.entity ("script.foo"))).results) ∧
      (Kind.entity, ("script.foo" : String)) ∉
        cleanup_results ((resolve_all empty_graph 2 (seed Kind.entity ("script.foo"))).results) ∧
      async_search empty_graph 2 Kind.entity ("script.foo") = none := by
  decide

/-- C3 counterexample: a scene id discovered while resolving an entity
is recorded under kind scene but NOT enqueued: add_or_resolve leaves
the worklist unchanged for scene kind, and in a configuration where
scene.s contains light.x, a search entered at light.e (contained in
scene.s) returns scene.s without ever expanding it, so light.x is
absent from the result. -/
theorem entity_rule_scene_not_enqueued_cex :
    (add_or_resolve Kind.scene ("scene.s") (seed Kind.entity ("light.e"))).to_resolve =
        (seed Kind.entity ("light.e")).to_resolve ∧
      async_search (scenario_graph ("scene.s") ("light.x") ("light.e")) 3
          Kind.entity ("light.e") = some {(Kind.scene, ("scene.s"))} ∧
      (Kind.entity, ("light.x" : String)) ∉
        ({(Kind.scene, ("scene.s"))} : Finset (Kind × String)) := by
  decide

/-- C3 amended: when the entity rule re-classifies an id into the
scene or group kind, add_or_resolve records the pair in the result but
does not enqueue it (scene and group are terminal kinds), so its
kind-specific rule does not run. -/
theorem entity_rule_special_kind_recorded_not_enqueued (k : Kind) (i : String) (s : Searcher)
    (hk : k = Kind.scene ∨ k = Kind.group) :
    (k, i) ∈ (add_or_resolve k i s).results ∧
      (add_or_resolve k i s).to_resolve = s.to_resolve := by
  refine ⟨add_or_resolve_mem_self k i s, ?_⟩
  unfold add_or_resolve
  split_ifs with h1 h2
  · rfl
  · rfl
  · exfalso
    apply h2
    rcases hk with rfl | rfl <;> decide

/-- Witness for the amended C3 at a concrete call. -/
theorem entity_rule_special_kind_witness :
    (Kind.scene, ("scene.s" : String)) ∈
        (add_or_resolve Kind.scene ("scene.s") (seed Kind.entity ("light.e"))).results ∧
      (add_or_resolve Kind.scene ("scene.s") (seed Kind.entity ("light.e"))).to_resolve =
        (seed Kind.entity ("light.e")).to_resolve :=
  entity_rule_special_kind_recorded_not_enqueued Kind.scene ("scene.s")
    (seed Kind.entity ("light.e")) (Or.inl rfl)

/-- C8: an entry whose expansion discovers nothing (every adjacency
query for it returns nothing) raises no error: the drain records only
the seed, which entry-point removal then deletes, returning an
entirely empty mapping. -/
theorem search_dangling_entry_empty (g : Graph) (k : Kind) (i : String) (fuel : Nat)
    (hempty : found_related g (k, i) = []) :
    async_search g fuel k i = some ∅ := by
  have hres : (resolve_all g fuel (seed k i)).results = {(k, i)} := by
    cases fuel with
    | zero => rfl
    | succ fuel =>
      show (resolve_all g fuel
        (resolve_node g (k, i) { seed k i with to_resolve := [] })).results = _
      rw [resolve_node_eq_run, hempty, run_nil,
        resolve_all_of_empty g fuel { seed k i with to_resolve := [] } rfl]
      rfl
  have hpred : ¬((k, i).1 = Kind.entity ∧
      ((Kind.script, (k, i).2) ∈ ({(k, i)} : Finset (Kind × String)) ∨
       (Kind.scene, (k, i).2) ∈ ({(k, i)} : Finset (Kind × String)) ∨
       (Kind.automation, (k, i).2) ∈ ({(k, i)} : Finset (Kind × String)) ∨
       (Kind.group, (k, i).2) ∈ ({(k, i)} : Finset (Kind × String)))) := by
    rintro ⟨hk, hmem⟩
    rcases hmem with hm | hm | hm | hm <;>
      (rw [Finset.mem_singleton, Prod.mk.injEq] at hm; rw [hm.1.symm] at hk; cases hk)
  have hcl : cleanup_results {(k, i)} = {(k, i)} := by
    unfold cleanup_results
    rw [Finset.filter_singleton, if_pos hpred]
  unfold async_search
  rw [hres, hcl]
  unfold remove_entry
  rw [if_pos (Finset.mem_singleton_self _), Finset.erase_singleton]

/-- Witness for C8: searching for a device id that resolves nowhere on
the empty configuration yields the empty mapping without error. -/
theorem search_dangling_entry_empty_witness :
    async_search empty_graph 3 Kind.device ("unknown.device") = some ∅ :=
  search_dangling_entry_empty empty_graph Kind.device ("unknown.device") 3 (by decide)

/-- C4: termination on finite graphs: if a finite universe U of pairs
contains the entry and is closed under the adjacency rules, the drain
loop empties the worklist within two worklist iterations per pair of
U, because a pair is enqueued at most once (membership in the
monotonically growing result set is checked before enqueueing). -/
theorem search_terminates (g : Graph) (k0 : Kind) (i0 : String)
    (U : Finset (Kind × String)) (hseed : (k0, i0) ∈ U)
    (hU : ∀ p ∈ U, ∀ c ∈ found_related g p, c ∈ U)
    (fuel : Nat) (hfuel : 2 * U.card ≤ fuel + 1) :
    (resolve_all g fuel (seed k0 i0)).to_resolve = [] := by
  refine resolve_all_drains g U hU fuel (seed k0 i0) ?_ ?_ ?_
  · intro q hq
    rw [Finset.mem_singleton.1 hq]
    exact hseed
  · intro q hq
    rw [List.mem_singleton.1 hq]
    exact Finset.mem_singleton_self _
  · have h1 : (seed k0 i0).to_resolve.length = 1 := rfl
    have h2 : (seed k0 i0).results.card = 1 := rfl
    omega

/-- Witness for C4: on the empty configuration, the universe holding
just the seeded area pair is closed, and a fuel of two empties the
worklist. -/
theorem search_terminates_witness :
    (resolve_all empty_graph 2 (seed Kind.area ("a"))).to_resolve = [] :=
  search_terminates empty_graph Kind.area ("a") {(Kind.area, ("a"))}
    (by decide) (by decide) 2 (by decide)

/-- C10: worklist-in-results invariant: in every state reachable from
the seeded state, every pending pair is already recorded in the
results, and the results only grow from there on, so every pair ever
enqueued is in the final result set. -/
theorem worklist_subset_results (g : Graph) (k0 : Kind) (i0 : String) (s : Searcher)
    (h : Relation.ReflTransGen (search_step g) (seed k0 i0) s) :
    (∀ q ∈ s.to_resolve, q ∈ s.results) ∧
      (∀ t, Relation.ReflTransGen (search_step g) s t → ∀ q ∈ s.results, q ∈ t.results) := by
  constructor
  · intro q hq
    exact ((searchInv_reached g k0 i0 s h).2.2.1 q hq).2
  · intro t ht
    induction ht with
    | refl => exact fun q hq => hq
    | tail _ hstep ih => exact fun q hq => search_step_results_mono _ _ _ hstep q (ih q hq)

/-- Witness for C10 at the seeded state itself. -/
theorem worklist_subset_results_witness :
    (∀ q ∈ (seed Kind.area ("a")).to_resolve, q ∈ (seed Kind.area ("a")).results) ∧
      (∀ t, Relation.ReflTransGen (search_step empty_graph) (seed Kind.area ("a")) t →
        ∀ q ∈ (seed Kind.area ("a")).results, q ∈ t.results) :=
  worklist_subset_results empty_graph Kind.area ("a") (seed Kind.area ("a"))
    Relation.ReflTransGen.refl

/-- C7: the returned mapping does not depend on the order in which
pending pairs are popped: any two complete drains from the same seeded
state produce the same results, hence the same final mapping after
cleanup and entry-point removal. -/
theorem search_order_independent (g : Graph) (k0 : Kind) (i0 : String) (s1 s2 : Searcher)
    (h1 : Relation.ReflTransGen (search_step g) (seed k0 i0) s1) (e1 : s1.to_resolve = [])
    (h2 : Relation.ReflTransGen (search_step g) (seed k0 i0) s2) (e2 : s2.to_resolve = []) :
    remove_entry k0 i0 (cleanup_results s1.results) =
      remove_entry k0 i0 (cleanup_results s2.results) := by
  have hres : s1.results = s2.results :=
    Finset.ext fun q =>
      (drained_results_eq g k0 i0 s1 h1 e1 q).trans
        ((drained_results_eq g k0 i0 s2 h2 e2 q).symm)
  rw [hres]

/-- Witness for C7: the one-step drain of an area search on the empty
configuration, compared with itself. -/
theorem search_order_independent_witness :
    remove_entry Kind.area ("a")
        (cleanup_results (Searcher.mk {(Kind.area, ("a"))} []).results) =
      remove_entry Kind.area ("a")
        (cleanup_results (Searcher.mk {(Kind.area, ("a"))} []).results) :=
  search_order_independent empty_graph Kind.area ("a")
    (Searcher.mk {(Kind.area, ("a"))} []) (Searcher.mk {(Kind.area, ("a"))} [])
    (Relation.ReflTransGen.single ⟨[], (Kind.area, ("a")), [], rfl, rfl⟩) rfl
    (Relation.ReflTransGen.single ⟨[], (Kind.area, ("a")), [], rfl, rfl⟩) rfl

/-- Adjacency of the scenario configuration at the entry entity E0:
only the containing scene's entity id is discovered, under kind
entity. -/
theorem scenario_found_from_E0 (S E E0 : String)
    (hE01 : (split_entity_id E0).headD ("") ≠ "scene")
    (hE02 : (split_entity_id E0).headD ("") ≠ "automation")
    (hE03 : (split_entity_id E0).headD ("") ≠ "script")
    (hE04 : (split_entity_id E0).headD ("") ≠ "group") :
    found_related (scenario_graph S E E0) (Kind.entity, E0) = [(Kind.entity, S)] := by
  simp only [found_related, scenario_graph, empty_graph, or_true, if_true]
  rw [if_neg hE01, if_neg hE02, if_neg hE03, if_neg hE04]
  simp only [List.map_cons, List.map_nil, List.append_nil, List.nil_append]

/-- Adjacency of the scenario configuration at the scene's own entity
id S: only the re-classification (scene, S). -/
theorem scenario_found_from_S (S E E0 : String) (hSE : S ≠ E) (hSE0 : S ≠ E0)
    (hSdom : (split_entity_id S).headD ("") = "scene") :
    found_related (scenario_graph S E E0) (Kind.entity, S) = [(Kind.scene, S)] := by
  simp only [found_related, scenario_graph, empty_graph]
  rw [if_neg (by rintro (h | h); exact hSE h; exact hSE0 h)]
  rw [if_pos hSdom]
  simp only [List.map_cons, List.map_nil, List.append_nil, List.nil_append]

/-- Adjacency of the scenario configuration at the scene node itself:
its two member entities. -/
theorem scenario_found_from_scene (S E E0 : String) :
    found_related (scenario_graph S E E0) (Kind.scene, S) =
      [(Kind.entity, E), (Kind.entity, E0)] := by
  simp only [found_related, scenario_graph, empty_graph, if_true]
  simp only [List.map_cons, List.map_nil]

/-- Adjacency of the scenario configuration at the entity E: only the
containing scene's entity id, under kind entity. -/
theorem scenario_found_from_E (S E E0 : String)
    (hE1 : (split_entity_id E).headD ("") ≠ "scene")
    (hE2 : (split_entity_id E).headD ("") ≠ "automation")
    (hE3 : (split_entity_id E).headD ("") ≠ "script")
    (hE4 : (split_entity_id E).headD ("") ≠ "group") :
    found_related (scenario_graph S E E0) (Kind.entity, E) = [(Kind.entity, S)] := by
  simp only [found_related, scenario_graph, empty_graph, true_or, if_true]
  rw [if_neg hE1, if_neg hE2, if_neg hE3, if_neg hE4]
  simp only [List.map_cons, List.map_nil, List.append_nil, List.nil_append]

/-- C1: entry-point-only expansion of terminal kinds.  First half, on
any configuration: a search entered at (scene, S) records every entity
E contained in S and keeps it under the entity bucket (provided E is a
plain entity: its domain is none of the four re-classified ones, and E
is not S itself).  Second half, on the minimal scenario configuration:
a search entered at a different entity E0 also contained in S returns
S under the scene bucket, but E appears nowhere in the result, because
S, discovered as a non-entry node, is never expanded. -/
theorem entry_point_only_expansion (S E E0 : String)
    (hEE0 : E ≠ E0)
    (hSdom : (split_entity_id S).headD ("") = "scene")
    (hE1 : (split_entity_id E).headD ("") ≠ "scene")
    (hE2 : (split_entity_id E).headD ("") ≠ "automation")
    (hE3 : (split_entity_id E).headD ("") ≠ "script")
    (hE4 : (split_entity_id E).headD ("") ≠ "group")
    (hE01 : (split_entity_id E0).headD ("") ≠ "scene")
    (hE02 : (split_entity_id E0).headD ("") ≠ "automation")
    (hE03 : (split_entity_id E0).headD ("") ≠ "script")
    (hE04 : (split_entity_id E0).headD ("") ≠ "group") :
    (∀ (g : Graph) (fuel : Nat), E ∈ g.entities_in_scene S →
      ∃ r, async_search g (fuel + 1) Kind.scene S = some r ∧ (Kind.entity, E) ∈ r) ∧
    (∃ r, async_search (scenario_graph S E E0) 7 Kind.entity E0 = some r ∧
      (Kind.scene, S) ∈ r ∧ ∀ k : Kind, (k, E) ∉ r) := by
  have hSE : S ≠ E := fun h => hE1 (by rw [← h]; exact hSdom)
  have hSE0 : S ≠ E0 := fun h => hE01 (by rw [← h]; exact hSdom)
  constructor
  · intro g fuel hmem
    have hunf : resolve_all g (fuel + 1) (seed Kind.scene S) =
        resolve_all g fuel
          (resolve_node g (Kind.scene, S) (Searcher.mk {(Kind.scene, S)} [])) := rfl
    have hEin : (Kind.entity, E) ∈ (resolve_all g (fuel + 1) (seed Kind.scene S)).results := by
      rw [hunf]
      refine resolve_all_results_mono g fuel _ _ ?_
      rw [resolve_node_eq_run]
      refine run_mem_of_mem _ _ _ ?_
      show (Kind.entity, E) ∈ (g.entities_in_scene S).map (fun e => (Kind.entity, e))
      exact List.mem_map.2 ⟨E, hmem, rfl⟩
    have hSin : (Kind.scene, S) ∈ (resolve_all g (fuel + 1) (seed Kind.scene S)).results :=
      resolve_all_results_mono g (fuel + 1) (seed Kind.scene S) _ (Finset.mem_singleton_self _)
    have hbase : ∀ q ∈ (seed Kind.scene S).results, ∀ n, kind_domain q.1 = some n →
        q = (Kind.scene, S) ∨ (split_entity_id q.2).headD ("") = n := by
      intro q hq n _
      exact Or.inl (Finset.mem_singleton.1 hq)
    have hdomaux := resolve_all_domain_aux g Kind.scene S (fuel + 1) (seed Kind.scene S) hbase
    have hscript : (Kind.script, E) ∉ (resolve_all g (fuel + 1) (seed Kind.scene S)).results := by
      intro hm
      rcases hdomaux (Kind.script, E) hm ("script") rfl with h | h
      · simp at h
      · exact hE3 h
    have hscene : (Kind.scene, E) ∉ (resolve_all g (fuel + 1) (seed Kind.scene S)).results := by
      intro hm
      rcases hdomaux (Kind.scene, E) hm ("scene") rfl with h | h
      · exact hSE (congrArg Prod.snd h).symm
      · exact hE1 h
    have hauto : (Kind.automation, E) ∉ (resolve_all g (fuel + 1) (seed Kind.scene S)).results := by
      intro hm
      rcases hdomaux (Kind.automation, E) hm ("automation") rfl with h | h
      · simp at h
      · exact hE2 h
    have hgroup : (Kind.group, E) ∉ (resolve_all g (fuel + 1) (seed Kind.scene S)).results := by
      intro hm
      rcases hdomaux (Kind.group, E) hm ("group") rfl with h | h
      · simp at h
      · exact hE4 h
    have hcl : (Kind.entity, E) ∈
        cleanup_results (resolve_all g (fuel + 1) (seed Kind.scene S)).results :=
      (mem_cleanup_entity _ E).2 ⟨hEin, hscript, hscene, hauto, hgroup⟩
    have hScl : (Kind.scene, S) ∈
        cleanup_results (resolve_all g (fuel + 1) (seed Kind.scene S)).results :=
      mem_cleanup_of_ne_entity _ _ hSin (show Kind.scene ≠ Kind.entity from by decide)
    refine ⟨(cleanup_results (resolve_all g (fuel + 1) (seed Kind.scene S)).results).erase
        (Kind.scene, S), ?_, ?_⟩
    · show remove_entry Kind.scene S
          (cleanup_results (resolve_all g (fuel + 1) (seed Kind.scene S)).results) = _
      unfold remove_entry
      rw [if_pos hScl]
    · exact Finset.mem_erase.2
        ⟨fun h => by simp at h, hcl⟩
  · have hfr0 : found_related (scenario_graph S E E0) (Kind.entity, E0) =
        [(Kind.entity, S)] := scenario_found_from_E0 S E E0 hE01 hE02 hE03 hE04
    have hfrS : found_related (scenario_graph S E E0) (Kind.entity, S) =
        [(Kind.scene, S)] := scenario_found_from_S S E E0 hSE hSE0 hSdom
    have hfrSc : found_related (scenario_graph S E E0) (Kind.scene, S) =
        [(Kind.entity, E), (Kind.entity, E0)] := scenario_found_from_scene S E E0
    have hfrE : found_related (scenario_graph S E E0) (Kind.entity, E) =
        [(Kind.entity, S)] := scenario_found_from_E S E E0 hE1 hE2 hE3 hE4
    have hexp_sub : ∀ q, Expanded (scenario_graph S E E0) Kind.entity E0 q →
        q = (Kind.entity, E0) ∨ q = (Kind.entity, S) := by
      intro q hq
      induction hq with
      | seed => exact Or.inl rfl
      | child p c hp hcp hck ihp =>
        rcases ihp with rfl | rfl
        · rw [hfr0] at hcp
          exact Or.inr (List.mem_singleton.1 hcp)
        · rw [hfrS] at hcp
          rw [List.mem_singleton.1 hcp] at hck
          exact absurd (show Kind.scene ∈ DONT_RESOLVE from by decide) hck
    have hfound_sub : ∀ q, q ∈ FoundSet (scenario_graph S E E0) Kind.entity E0 →
        q = (Kind.entity, E0) ∨ q = (Kind.entity, S) ∨ q = (Kind.scene, S) := by
      intro q hq
      rcases hq with rfl | ⟨p, hp, hq2⟩
      · exact Or.inl rfl
      · rcases hexp_sub p hp with rfl | rfl
        · rw [hfr0] at hq2
          exact Or.inr (Or.inl (List.mem_singleton.1 hq2))
        · rw [hfrS] at hq2
          exact Or.inr (Or.inr (List.mem_singleton.1 hq2))
    have hUclosed : ∀ p ∈ ({(Kind.entity, E0), (Kind.entity, S), (Kind.scene, S),
        (Kind.entity, E)} : Finset (Kind × String)),
        ∀ c ∈ found_related (scenario_graph S E E0) p,
          c ∈ ({(Kind.entity, E0), (Kind.entity, S), (Kind.scene, S),
            (Kind.entity, E)} : Finset (Kind × String)) := by
      intro p hp c hc
      rcases Finset.mem_insert.1 hp with rfl | hp
      · rw [hfr0] at hc
        rw [List.mem_singleton.1 hc]
        exact Finset.mem_insert_of_mem (Finset.mem_insert_self _ _)
      rcases Finset.mem_insert.1 hp with rfl | hp
      · rw [hfrS] at hc
        rw [List.mem_singleton.1 hc]
        exact Finset.mem_insert_of_mem (Finset.mem_insert_of_mem (Finset.mem_insert_self _ _))
      rcases Finset.mem_insert.1 hp with rfl | hp
      · rw [hfrSc] at hc
        rcases List.mem_cons.1 hc with rfl | hc
        · exact Finset.mem_insert_of_mem (Finset.mem_insert_of_mem
            (Finset.mem_insert_of_mem (Finset.mem_singleton_self _)))
        · rw [List.mem_singleton.1 hc]
          exact Finset.mem_insert_self _ _
      · rw [Finset.mem_singleton.1 hp, hfrE] at hc
        rw [List.mem_singleton.1 hc]
        exact Finset.mem_insert_of_mem (Finset.mem_insert_self _ _)
    have hempty : (resolve_all (scenario_graph S E E0) 7 (seed Kind.entity E0)).to_resolve = [] := by
      refine resolve_all_drains (scenario_graph S E E0)
        {(Kind.entity, E0), (Kind.entity, S), (Kind.scene, S), (Kind.entity, E)}
        hUclosed 7 (seed Kind.entity E0) ?_ ?_ ?_
      · intro q hq
        rw [Finset.mem_singleton.1 hq]
        exact Finset.mem_insert_self _ _
      · intro q hq
        rw [List.mem_singleton.1 hq]
        exact Finset.mem_singleton_self _
      · have hc4 : ({(Kind.entity, E0), (Kind.entity, S), (Kind.scene, S),
            (Kind.entity, E)} : Finset (Kind × String)).card ≤ 4 := by
          refine le_trans (Finset.card_insert_le _ _) ?_
          refine Nat.succ_le_succ ?_
          refine le_trans (Finset.card_insert_le _ _) ?_
          refine Nat.succ_le_succ ?_
          refine le_trans (Finset.card_insert_le _ _) ?_
          refine Nat.succ_le_succ ?_
          exact le_of_eq (Finset.card_singleton _)
        have h1 : (seed Kind.entity E0).to_resolve.length = 1 := rfl
        have h2 : (seed Kind.entity E0).results.card = 1 := rfl
        omega
    have hreach := resolve_all_reaches (scenario_graph S E E0) 7 (seed Kind.entity E0)
    have hiff := drained_results_eq (scenario_graph S E E0) Kind.entity E0 _ hreach hempty
    have hexpS : Expanded (scenario_graph S E E0) Kind.entity E0 (Kind.entity, S) :=
      Expanded.child (Kind.entity, E0) (Kind.entity, S) Expanded.seed
        (by rw [hfr0]; exact List.mem_singleton.2 rfl) (show Kind.entity ∉ DONT_RESOLVE from by decide)
    have hE0in : (Kind.entity, E0) ∈
        (resolve_all (scenario_graph S E E0) 7 (seed Kind.entity E0)).results :=
      (hiff _).2 (Or.inl rfl)
    have hSin : (Kind.scene, S) ∈
        (resolve_all (scenario_graph S E E0) 7 (seed Kind.entity E0)).results :=
      (hiff _).2 (Or.inr ⟨(Kind.entity, S), hexpS, by rw [hfrS]; exact List.mem_singleton.2 rfl⟩)
    have h3 : ∀ q, q ∈ (resolve_all (scenario_graph S E E0) 7 (seed Kind.entity E0)).results →
        q = (Kind.entity, E0) ∨ q = (Kind.entity, S) ∨ q = (Kind.scene, S) :=
      fun q hq => hfound_sub q ((hiff q).1 hq)
    have hscriptE0 : (Kind.script, E0) ∉
        (resolve_all (scenario_graph S E E0) 7 (seed Kind.entity E0)).results := by
      intro hm
      rcases h3 _ hm with h | h | h <;> simp at h
    have hsceneE0 : (Kind.scene, E0) ∉
        (resolve_all (scenario_graph S E E0) 7 (seed Kind.entity E0)).results := by
      intro hm
      rcases h3 _ hm with h | h | h
      · simp at h
      · simp at h
      · exact hSE0 (congrArg Prod.snd h).symm
    have hautoE0 : (Kind.automation, E0) ∉
        (resolve_all (scenario_graph S E E0) 7 (seed Kind.entity E0)).results := by
      intro hm
      rcases h3 _ hm with h | h | h <;> simp at h
    have hgroupE0 : (Kind.group, E0) ∉
        (resolve_all (scenario_graph S E E0) 7 (seed Kind.entity E0)).results := by
      intro hm
      rcases h3 _ hm with h | h | h <;> simp at h
    have hcleanE0 : (Kind.entity, E0) ∈
        cleanup_results (resolve_all (scenario_graph S E E0) 7 (seed Kind.entity E0)).results :=
      (mem_cleanup_entity _ E0).2 ⟨hE0in, hscriptE0, hsceneE0, hautoE0, hgroupE0⟩
    refine ⟨(cleanup_results
        (resolve_all (scenario_graph S E E0) 7 (seed Kind.entity E0)).results).erase
        (Kind.entity, E0), ?_, ?_, ?_⟩
    · show remove_entry Kind.entity E0 (cleanup_results
          (resolve_all (scenario_graph S E E0) 7 (seed Kind.entity E0)).results) = _
      unfold remove_entry
      rw [if_pos hcleanE0]
    · refine Finset.mem_erase.2 ⟨fun h => by simp at h, ?_⟩
      exact mem_cleanup_of_ne_entity _ _ hSin (show Kind.scene ≠ Kind.entity from by decide)
    · intro k hm
      have hm2 := cleanup_subset _ _ (Finset.mem_of_mem_erase hm)
      rcases h3 _ hm2 with h | h | h
      · exact hEE0 (congrArg Prod.snd h)
      · exact hSE (congrArg Prod.snd h).symm
      · exact hSE (congrArg Prod.snd h).symm

/-- Witness for C1 at concrete ids. -/
theorem entry_point_only_expansion_witness :
    (∀ (g : Graph) (fuel : Nat), ("light.a" : String) ∈ g.entities_in_scene ("scene.sc") →
      ∃ r, async_search g (fuel + 1) Kind.scene ("scene.sc") = some r ∧
        (Kind.entity, ("light.a" : String)) ∈ r) ∧
    (∃ r, async_search (scenario_graph ("scene.sc") ("light.a") ("light.b")) 7
        Kind.entity ("light.b") = some r ∧
      (Kind.scene, ("scene.sc" : String)) ∈ r ∧ ∀ k : Kind, (k, ("light.a" : String)) ∉ r) :=
  entry_point_only_expansion ("scene.sc") ("light.a") ("light.b")
    (by decide) (by decide) (by decide) (by decide) (by decide)
    (by decide) (by decide) (by decide) (by decide) (by decide)

end SearchIntegration
